import Mathlib

set_option maxRecDepth 100000

/-!
Shallow embedding of the FastAPI backend in `app-api/main.py`.

The embedding models, faithfully to the Python source:
* the pure string helpers (`_clean_text`, `_mock_generate`, `_mock_title`,
  `_mock_summary`, `_mock_keywords`),
* JSON serialisation/deserialisation (`json.dumps` / `json.loads`) restricted
  to the payload shapes the handlers produce (objects mapping string keys to
  strings or lists of strings),
* the sqlite-backed log store (`_record_log`, the `logs` table, the
  `SELECT ... ORDER BY id DESC LIMIT ?` query behind `/history`),
* the four request handlers `generate`, `title`, `summarize`, `keywords`,
  with the mock/live branching, the eager API-key check and the single
  completion call of the live path.

Python strings are modelled as Lean `String` (sequences of unicode scalar
values, matching Python's code-point view; `len`, slicing and comparison all
agree).  Whitespace and case-folding predicates are restricted to the ASCII
range.
-/

namespace App

/-- Whitespace as recognised by Python `str.strip` / `str.split`
(ASCII range: space, tab, newline, carriage return, vertical tab, form feed). -/
def pyIsSpace (c : Char) : Bool :=
  c = ' ' || c = '\t' || c = '\n' || c = '\r' || c = Char.ofNat 11 || c = Char.ofNat 12

/-- Python `value.strip()`, the body of `_clean_text` in `main.py`. -/
def pyStrip (s : String) : String :=
  String.mk (((s.data.dropWhile pyIsSpace).reverse.dropWhile pyIsSpace).reverse)

/-- Python `value.rstrip()`. -/
def pyRstrip (s : String) : String :=
  String.mk ((s.data.reverse.dropWhile pyIsSpace).reverse)

/-- Python slicing `s[:n]` on a string: the first `n` code points. -/
def pyTake (s : String) (n : Nat) : String := String.mk (s.data.take n)

/-- Python `s.lower()` (ASCII case folding). -/
def pyLower (s : String) : String := String.mk (s.data.map Char.toLower)

/-- Split a character list at every character satisfying `p`; the pieces
between separators are kept, so consecutive separators yield empty pieces. -/
def splitOnPred (p : Char → Bool) : List Char → List (List Char)
  | [] => [[]]
  | c :: cs =>
    if p c then [] :: splitOnPred p cs
    else
      match splitOnPred p cs with
      | [] => [[c]]
      | r :: rs => (c :: r) :: rs

/-- Python `s.split(",")`: split at every comma, keeping empty pieces. -/
def pySplitComma (s : String) : List String :=
  (splitOnPred (fun c => c = ',') s.data).map String.mk

/-- Python `s.split()` with no argument: maximal runs of non-whitespace. -/
def pySplit (s : String) : List String :=
  ((splitOnPred pyIsSpace s.data).filter (fun r => r ≠ [])).map String.mk

/-- `_mock_generate` in `main.py`. -/
def mock_generate (prompt : String) : String := "(mock) you said: " ++ prompt

/-- `_mock_title` in `main.py`: strip, default `"Untitled"` when blank, else
join the first 12 whitespace-separated words and cut to 80 code points. -/
def mock_title (text : String) : String :=
  let cleaned := pyStrip text
  if cleaned = "" then "Untitled"
  else pyTake (String.intercalate " " ((pySplit cleaned).take 12)) 80

/-- `_mock_summary` in `main.py`. -/
def mock_summary (text : String) : String :=
  let cleaned := pyStrip text
  if cleaned = "" then "No content."
  else if cleaned.length ≤ 150 then cleaned
  else pyRstrip (pyTake cleaned 150) ++ "..."

/-- Python regex `\w` word characters (ASCII range: letters, digits, `_`). -/
def isWordChar (c : Char) : Bool := c.isAlphanum || c = '_'

/-- `re.findall(r"\b\w+\b", s)`: the maximal runs of word characters. -/
def wordRuns (s : String) : List String :=
  ((splitOnPred (fun c => !isWordChar c) s.data).filter (fun r => r ≠ [])).map String.mk

/-- One step of order-preserving de-duplication (Python `dict.fromkeys`;
for `set(...)` followed by `sorted` the traversal order is irrelevant). -/
def dedupStep (acc : List String) (x : String) : List String :=
  if x ∈ acc then acc else acc ++ [x]

/-- De-duplicate keeping first occurrences, in order. -/
def dedupKeepFirst (l : List String) : List String := l.foldl dedupStep []

/-- Python `<` on strings: lexicographic comparison of code points, a proper
prefix being smaller. -/
def strLtB : List Char → List Char → Bool
  | _, [] => false
  | [], _ :: _ => true
  | a :: as, b :: bs => if a < b then true else if b < a then false else strLtB as bs

/-- Python `a <= b` on strings (`not b < a`), the order used by `sorted`. -/
def pyStrLe (a b : String) : Prop := strLtB b.data a.data = false

instance : DecidableRel pyStrLe :=
  fun a b => (inferInstance : Decidable (strLtB b.data a.data = false))

/-- Python `sorted` on a list of strings (code-point lexicographic order). -/
def pySortedStr (l : List String) : List String := l.insertionSort pyStrLe

/-- `_mock_keywords` in `main.py`: `sorted(set(re.findall(r"\b\w+\b", text.lower())))`. -/
def mock_keywords (text : String) : List String :=
  pySortedStr (dedupKeepFirst (wordRuns (pyLower text)))

/-! ### JSON values and serialisation (`json.dumps` / `json.loads`)

The handlers only ever serialise objects whose values are strings or lists of
strings (request bodies `\x7b"prompt": ...\x7d` / `\x7b"text": ...\x7d` and
response payloads `\x7b"text": ...\x7d` / `\x7b"keywords": [...]\x7d`), so the
JSON model is restricted to that fragment.  `json.dumps(..., ensure_ascii=False)`
with default separators is modelled exactly: `", "` between items, `": "` after
keys, short escapes for quote, backslash, newline, tab, carriage return,
backspace and form feed, `\u00xx` (lowercase hex) for the other control
characters, everything else verbatim.  The decoder models `json.loads` on this
fragment, including optional JSON whitespace and all string escapes except
surrogate-pair `\uXXXX` sequences (which the encoder never emits). -/

/-- A JSON value of the restricted payload fragment. -/
inductive JVal where
  | s (v : String)
  | arr (vs : List String)
deriving DecidableEq

/-- A JSON object of the restricted fragment, in key order. -/
abbrev Payload := List (String × JVal)

/-- Lowercase hexadecimal digit, as produced by Python `"\u%04x"`. -/
def hexDig (n : Nat) : Char := if n < 10 then Char.ofNat (48 + n) else Char.ofNat (87 + n)

/-- `json.dumps` escaping of one character (`ensure_ascii=False`). -/
def escChar (c : Char) : List Char :=
  if c = '"' then ['\\', '"']
  else if c = '\\' then ['\\', '\\']
  else if c = '\n' then ['\\', 'n']
  else if c = '\t' then ['\\', 't']
  else if c = '\r' then ['\\', 'r']
  else if c = Char.ofNat 8 then ['\\', 'b']
  else if c = Char.ofNat 12 then ['\\', 'f']
  else if c.toNat < 32 then ['\\', 'u', '0', '0', hexDig (c.toNat / 16), hexDig (c.toNat % 16)]
  else [c]

/-- Escape a whole character list. -/
def escList : List Char → List Char
  | [] => []
  | c :: cs => escChar c ++ escList cs

/-- Encoded JSON string literal (quote, escaped body, quote). -/
def encStrL (cs : List Char) : List Char := '"' :: (escList cs ++ ['"'])

/-- The default `json.dumps` item separator `", "`. -/
def sepItem : List Char := [',', ' ']

/-- Join encoded items with the `", "` separator. -/
def interL : List (List Char) → List Char
  | [] => []
  | [x] => x
  | x :: y :: xs => x ++ (sepItem ++ interL (y :: xs))

/-- Encode one JSON value. -/
def encValL : JVal → List Char
  | .s v => encStrL v.data
  | .arr vs => '[' :: (interL (vs.map (fun v => encStrL v.data)) ++ [']'])

/-- Encode one `key: value` pair (`": "` key separator). -/
def encPairL (kv : String × JVal) : List Char :=
  encStrL kv.1.data ++ (':' :: ' ' :: encValL kv.2)

/-- Encode a payload object. -/
def encPayloadL (p : Payload) : List Char :=
  Char.ofNat 123 :: (interL (p.map encPairL) ++ [Char.ofNat 125])

/-- `json.dumps(p, ensure_ascii=False)` on the payload fragment. -/
def encPayload (p : Payload) : String := String.mk (encPayloadL p)

/-- JSON whitespace accepted between tokens by `json.loads`. -/
def jsonWs (c : Char) : Bool := c = ' ' || c = '\t' || c = '\n' || c = '\r'

/-- Skip JSON whitespace. -/
def skipWs (l : List Char) : List Char := l.dropWhile jsonWs

/-- Value of one hexadecimal digit. -/
def hexVal (c : Char) : Option Nat :=
  if '0' ≤ c ∧ c ≤ '9' then some (c.toNat - 48)
  else if 'a' ≤ c ∧ c ≤ 'f' then some (c.toNat - 87)
  else if 'A' ≤ c ∧ c ≤ 'F' then some (c.toNat - 55)
  else none

/-- Prepend a decoded character to a parse result. -/
def consFst (c : Char) (o : Option (List Char × List Char)) : Option (List Char × List Char) :=
  o.map (fun r => (c :: r.1, r.2))

/-- Parse the body of a JSON string literal (opening quote already consumed),
returning the decoded characters and the input after the closing quote. -/
def parseStrBody : List Char → Option (List Char × List Char)
  | [] => none
  | c :: rest =>
    if c = '"' then some ([], rest)
    else if c = '\\' then
      match rest with
      | [] => none
      | e :: rest2 =>
        if e = '"' then consFst '"' (parseStrBody rest2)
        else if e = '\\' then consFst '\\' (parseStrBody rest2)
        else if e = '/' then consFst '/' (parseStrBody rest2)
        else if e = 'n' then consFst '\n' (parseStrBody rest2)
        else if e = 't' then consFst '\t' (parseStrBody rest2)
        else if e = 'r' then consFst '\r' (parseStrBody rest2)
        else if e = 'b' then consFst (Char.ofNat 8) (parseStrBody rest2)
        else if e = 'f' then consFst (Char.ofNat 12) (parseStrBody rest2)
        else if e = 'u' then
          match rest2 with
          | h1 :: h2 :: h3 :: h4 :: rest3 =>
            match hexVal h1, hexVal h2, hexVal h3, hexVal h4 with
            | some a, some b, some c2, some d =>
              consFst (Char.ofNat (((a * 16 + b) * 16 + c2) * 16 + d)) (parseStrBody rest3)
            | _, _, _, _ => none
          | _ => none
        else none
    else consFst c (parseStrBody rest)

/-- Parse a JSON string literal. -/
def parseStrLit : List Char → Option (String × List Char)
  | [] => none
  | c :: rest =>
    if c = '"' then (parseStrBody rest).map (fun r => (String.mk r.1, r.2)) else none

/-- Parse the items of a non-empty JSON array of strings (fuelled recursion;
the fuel only needs to exceed the number of items). -/
def parseItems : Nat → List Char → Option (List String × List Char)
  | 0, _ => none
  | fuel + 1, l =>
    match parseStrLit l with
    | none => none
    | some (s, rest) =>
      match skipWs rest with
      | ']' :: rest2 => some ([s], rest2)
      | ',' :: rest2 =>
        match parseItems fuel (skipWs rest2) with
        | none => none
        | some (ss, rest3) => some (s :: ss, rest3)
      | _ => none

/-- Parse a JSON array of strings. -/
def parseArr (fuel : Nat) (l : List Char) : Option (List String × List Char) :=
  match l with
  | '[' :: rest =>
    match skipWs rest with
    | ']' :: rest2 => some ([], rest2)
    | rest2 => parseItems fuel rest2
  | _ => none

/-- Parse a JSON value of the fragment (string or array of strings). -/
def parseVal (fuel : Nat) (l : List Char) : Option (JVal × List Char) :=
  match l with
  | '"' :: _ => (parseStrLit l).map (fun r => (JVal.s r.1, r.2))
  | '[' :: _ => (parseArr fuel l).map (fun r => (JVal.arr r.1, r.2))
  | _ => none

/-- Parse the pairs of a non-empty JSON object of the fragment. -/
def parsePairs : Nat → List Char → Option (Payload × List Char)
  | 0, _ => none
  | fuel + 1, l =>
    match parseStrLit l with
    | none => none
    | some (k, rest) =>
      match skipWs rest with
      | ':' :: rest2 =>
        match parseVal fuel (skipWs rest2) with
        | none => none
        | some (v, rest3) =>
          match skipWs rest3 with
          | [] => none
          | c :: rest4 =>
            if c = Char.ofNat 125 then some ([(k, v)], rest4)
            else if c = ',' then
              match parsePairs fuel (skipWs rest4) with
              | none => none
              | some (kvs, rest5) => some ((k, v) :: kvs, rest5)
            else none
      | _ => none

/-- Parse a JSON object of the fragment. -/
def parsePayload (fuel : Nat) (l : List Char) : Option (Payload × List Char) :=
  match skipWs l with
  | [] => none
  | c :: rest =>
    if c = Char.ofNat 123 then
      match skipWs rest with
      | [] => none
      | d :: rest2 =>
        if d = Char.ofNat 125 then some ([], rest2)
        else parsePairs fuel (d :: rest2)
    else none

/-- `json.loads` on the payload fragment (`none` models a raised
`json.JSONDecodeError`). -/
def decodePayload (s : String) : Option Payload :=
  match parsePayload (s.data.length + 1) s.data with
  | some (p, rest) => if skipWs rest = [] then some p else none
  | none => none

/-! ### The log store (`logs` table, `_record_log`, the `/history` query) -/

/-- One row of the sqlite `logs` table. -/
structure LogRow where
  id : Nat
  ts : String
  mode : String
  input : String
  output : String
deriving DecidableEq

/-- The `logs` table plus the next `AUTOINCREMENT` id. -/
structure Store where
  nextId : Nat
  rows : List LogRow
deriving DecidableEq

/-- A fresh database (`AUTOINCREMENT` starts at 1). -/
def Store.empty : Store := ⟨1, []⟩

/-- `_record_log` in `main.py`: one atomic insert of the serialised call. -/
def record_log (st : Store) (ts mode : String) (inp out : Payload) : Store :=
  ⟨st.nextId + 1, st.rows ++ [⟨st.nextId, ts, mode, encPayload inp, encPayload out⟩]⟩

/-- Store invariant maintained by `record_log`: row ids strictly increase in
insertion order and stay below the next `AUTOINCREMENT` id. -/
def Store.WF (st : Store) : Prop :=
  st.rows.Pairwise (fun a b => a.id < b.id) ∧ ∀ r ∈ st.rows, r.id < st.nextId

/-- The `SELECT ... ORDER BY id DESC` part of the `/history` query. -/
def selectDescRows (rows : List LogRow) : List LogRow :=
  rows.insertionSort (fun a b => b.id ≤ a.id)

/-- One deserialised `/history` entry (`ts`, `mode`, decoded input/output). -/
structure HistEntry where
  ts : String
  mode : String
  input : Option Payload
  output : Option Payload
deriving DecidableEq

/-- Deserialise one row, as the `/history` list comprehension does. -/
def rowToEntry (r : LogRow) : HistEntry :=
  ⟨r.ts, r.mode, decodePayload r.input, decodePayload r.output⟩

/-- The rows selected by `/history`: ordered by id descending, then limited by
the sqlite `LIMIT` clause (a negative limit means no limit in sqlite). -/
def historyRows (st : Store) (limit : Int) : List LogRow :=
  if limit < 0 then selectDescRows st.rows else (selectDescRows st.rows).take limit.toNat

/-- The `/history` handler (`limit` is the query parameter, default 10). -/
def historyModel (st : Store) (limit : Int := 10) : List HistEntry :=
  (historyRows st limit).map rowToEntry

/-! ### The request handlers -/

/-- Process configuration: `MOCK_MODE` and the `OPENAI_API_KEY` credential. -/
structure Config where
  mock : Bool
  apiKey : Option String

/-- One request to the completion endpoint
(`client.chat.completions.create(model=..., messages=..., temperature=...)`). -/
structure CompletionCall where
  model : String
  temperature : ℚ
  messages : List (String × String)
deriving DecidableEq

/-- An `HTTPException(status_code=..., detail=...)`. -/
structure HttpErr where
  status : Nat
  detail : String
deriving DecidableEq

deriving instance DecidableEq for Except

/-- Outcome of one handled request: the HTTP result, the completion calls that
were issued while handling it, and the resulting store. -/
structure HResult where
  result : Except HttpErr Payload
  calls : List CompletionCall
  store : Store

/-- The external completion endpoint, as an oracle: a reply text, or the
message of a raised exception. -/
def LLM : Type := CompletionCall → Except String String

/-- `_ensure_api_key` in `main.py` (`if not client.api_key`: both an absent
and an empty credential are falsy in Python). -/
def ensure_api_key (cfg : Config) : Except HttpErr Unit :=
  match cfg.apiKey with
  | none => .error ⟨500, "Missing OPENAI_API_KEY"⟩
  | some k => if k = "" then .error ⟨500, "Missing OPENAI_API_KEY"⟩ else .ok ()

/-- The `/generate` handler. -/
def generate (cfg : Config) (llm : LLM) (ts : String) (st : Store) (prompt : String) :
    HResult :=
  if cfg.mock then
    let payload : Payload := [("text", .s (mock_generate prompt))]
    ⟨.ok payload, [], record_log st ts "generate" [("prompt", .s prompt)] payload⟩
  else
    match ensure_api_key cfg with
    | .error e => ⟨.error e, [], st⟩
    | .ok _ =>
      let call : CompletionCall := ⟨"gpt-4o-mini", 0.2, [("user", prompt)]⟩
      match llm call with
      | .error msg => ⟨.error ⟨500, msg⟩, [call], st⟩
      | .ok reply =>
        let payload : Payload := [("text", .s reply)]
        ⟨.ok payload, [call], record_log st ts "generate" [("prompt", .s prompt)] payload⟩

/-- The tail of the `/title` handler after a raw result was produced: the
blank-result fixups, the payload and the log write. -/
def finishTitle (st : Store) (ts text cleaned result : String)
    (calls : List CompletionCall) : HResult :=
  let result2 := if cleaned = "" then "Untitled"
    else if pyStrip result = "" then "Untitled" else result
  let payload : Payload := [("text", .s result2)]
  ⟨.ok payload, calls, record_log st ts "title" [("text", .s text)] payload⟩

/-- The `/title` handler. -/
def title (cfg : Config) (llm : LLM) (ts : String) (st : Store) (text : String) :
    HResult :=
  let cleaned := pyStrip text
  if cfg.mock then finishTitle st ts text cleaned (mock_title text) []
  else if cleaned = "" then finishTitle st ts text cleaned "Untitled" []
  else
    match ensure_api_key cfg with
    | .error e => ⟨.error e, [], st⟩
    | .ok _ =>
      let call : CompletionCall := ⟨"gpt-4o-mini", 0.1,
        [("system", "Provide a concise title."), ("user", cleaned)]⟩
      match llm call with
      | .error msg => ⟨.error ⟨500, msg⟩, [call], st⟩
      | .ok reply => finishTitle st ts text cleaned reply [call]

/-- The tail of the `/summarize` handler: payload construction
(`summary if cleaned else "No content."`) and the log write. -/
def finishSummarize (st : Store) (ts text cleaned summary : String)
    (calls : List CompletionCall) : HResult :=
  let payload : Payload := [("text", .s (if cleaned = "" then "No content." else summary))]
  ⟨.ok payload, calls, record_log st ts "summarize" [("text", .s text)] payload⟩

/-- The `/summarize` handler. -/
def summarize (cfg : Config) (llm : LLM) (ts : String) (st : Store) (text : String) :
    HResult :=
  let cleaned := pyStrip text
  if cfg.mock then finishSummarize st ts text cleaned (mock_summary text) []
  else if cleaned = "" then finishSummarize st ts text cleaned "No content." []
  else
    match ensure_api_key cfg with
    | .error e => ⟨.error e, [], st⟩
    | .ok _ =>
      let call : CompletionCall := ⟨"gpt-4o-mini", 0.3,
        [("system", "Summarize the following text."), ("user", cleaned)]⟩
      match llm call with
      | .error msg => ⟨.error ⟨500, msg⟩, [call], st⟩
      | .ok reply => finishSummarize st ts text cleaned reply [call]

/-- The live-path post-processing of the keywords reply:
`[w.strip().lower() for w in content.split(",") if w.strip()]` followed by
`sorted(dict.fromkeys(words))`. -/
def liveKeywords (reply : String) : List String :=
  pySortedStr (dedupKeepFirst
    (((pySplitComma reply).filter (fun w => pyStrip w ≠ "")).map
      (fun w => pyLower (pyStrip w))))

/-- The tail of the `/keywords` handler: payload construction and log write. -/
def finishKeywords (st : Store) (ts text : String) (words : List String)
    (calls : List CompletionCall) : HResult :=
  let payload : Payload := [("keywords", .arr words)]
  ⟨.ok payload, calls, record_log st ts "keywords" [("text", .s text)] payload⟩

/-- The `/keywords` handler. -/
def keywords (cfg : Config) (llm : LLM) (ts : String) (st : Store) (text : String) :
    HResult :=
  let cleaned := pyStrip text
  if cfg.mock then finishKeywords st ts text (mock_keywords text) []
  else if cleaned = "" then finishKeywords st ts text [] []
  else
    match ensure_api_key cfg with
    | .error e => ⟨.error e, [], st⟩
    | .ok _ =>
      let call : CompletionCall := ⟨"gpt-4o-mini", 0.0,
        [("system", "Extract distinct keywords as a comma separated list."), ("user", cleaned)]⟩
      match llm call with
      | .error msg => ⟨.error ⟨500, msg⟩, [call], st⟩
      | .ok reply => finishKeywords st ts text (liveKeywords reply) [call]

/-- The keywords post-processing described by the spec (§4.2), for the
refinement comparison of claim C5: first attempt to parse the reply as a JSON
array of strings; if that fails, split on commas, trim each piece and discard
empty pieces, preserving the model's order. -/
def specParseStringArray (reply : String) : Option (List String) :=
  match parseArr (reply.data.length + 1) (skipWs reply.data) with
  | some (vs, rest) => if skipWs rest = [] then some vs else none
  | none => none

/-- The spec's described keywords shaping (refinement comparison for C5). -/
def specKeywordsShape (reply : String) : List String :=
  match specParseStringArray reply with
  | some vs => vs
  | none => ((pySplitComma reply).map pyStrip).filter (fun w => w ≠ "")

/-! ### Concrete inputs used by counterexamples and witnesses -/

/-- A single 61-character word. -/
def demoLongWord : String := String.mk (List.replicate 61 'a')

/-- 151 spaces: untrimmed length over 150, trimmed empty. -/
def demoSpaces151 : String := String.mk (List.replicate 151 ' ')

/-- 151 letters: trimmed length over 150. -/
def demoLong151 : String := String.mk (List.replicate 151 'a')

/-- Live mode with a configured credential. -/
def liveCfg : Config := ⟨false, some "sk-test"⟩

/-- Live mode with no credential configured. -/
def noKeyCfg : Config := ⟨false, none⟩

/-- Mock mode. -/
def mockCfg : Config := ⟨true, none⟩

/-- A completion oracle that always replies. -/
def okLlm : LLM := fun _ => .ok "reply"

/-- A one-entry store. -/
def demoStore : Store :=
  record_log Store.empty "2024-01-01T00:00:00Z" "generate"
    [("prompt", .s "one")] [("text", .s "(mock) you said: one")]

/-- A two-entry store. -/
def demoStore2 : Store :=
  record_log demoStore "2024-01-01T00:00:05Z" "title"
    [("text", .s "second title")] [("text", .s "second title")]

/-- Number of array items carried by a JSON value (fuel accounting). -/
def arrLen : JVal → Nat
  | .s _ => 0
  | .arr vs => vs.length

/-- Fuel needed to parse an encoded payload: one unit per pair plus one unit
per array item. -/
def pairsWeight (p : Payload) : Nat :=
  p.length + (p.map (fun kv => arrLen kv.2)).sum

end App

open App

/-! ### Basic string lemmas -/

theorem data_append (a b : String) : (a ++ b).data = a.data ++ b.data := by
  cases a; cases b; rfl

theorem length_eq_data (s : String) : s.length = s.data.length := rfl

theorem mk_data (s : String) : String.mk s.data = s := by cases s; rfl

theorem pyRstrip_length_le (s : String) : (pyRstrip s).length ≤ s.length := by
  show ((s.data.reverse.dropWhile pyIsSpace).reverse).length ≤ s.data.length
  rw [List.length_reverse]
  calc (s.data.reverse.dropWhile pyIsSpace).length ≤ s.data.reverse.length :=
        (List.dropWhile_suffix pyIsSpace).sublist.length_le
    _ = s.data.length := List.length_reverse _

theorem pyTake_length_le (s : String) (n : Nat) : (pyTake s n).length ≤ n := by
  show (s.data.take n).length ≤ n
  simp [List.length_take]

/-! ### `_mock_summary` case analysis -/

theorem mock_summary_of_blank {t : String} (h : pyStrip t = "") :
    mock_summary t = "No content." := by
  simp [mock_summary, h]

theorem mock_summary_of_short {t : String} (h : pyStrip t ≠ "")
    (h2 : (pyStrip t).length ≤ 150) : mock_summary t = pyStrip t := by
  simp [mock_summary, h, h2]

theorem pyStrip_ne_of_long {t : String} (h : 150 < (pyStrip t).length) :
    pyStrip t ≠ "" := by
  intro he
  rw [he] at h
  simp at h

theorem mock_summary_of_long {t : String} (h : 150 < (pyStrip t).length) :
    mock_summary t = pyRstrip (pyTake (pyStrip t) 150) ++ "..." := by
  have hne := pyStrip_ne_of_long h
  simp [mock_summary, hne, Nat.not_le.mpr h]

theorem mock_summary_long_length {t : String} (h : 150 < (pyStrip t).length) :
    (mock_summary t).length ≤ 153 := by
  rw [mock_summary_of_long h]
  rw [length_eq_data, data_append, List.length_append]
  have h1 : (pyRstrip (pyTake (pyStrip t) 150)).length ≤ 150 :=
    le_trans (pyRstrip_length_le _) (pyTake_length_le _ _)
  rw [length_eq_data] at h1
  have h2 : ("..." : String).data.length = 3 := rfl
  omega

/-- A string of the form `t ++ "..."` has `['.', '.', '.']` as its last three
characters. -/
theorem dots_suffix_rev (s : String) (h : ∃ t, s = t ++ "...") :
    s.data.reverse.take 3 = ['.', '.', '.'] := by
  obtain ⟨t, rfl⟩ := h
  have hdots : ("..." : String).data = ['.', '.', '.'] := rfl
  rw [data_append, hdots, List.reverse_append]
  rfl

/-! ### De-duplication and sorting lemmas -/

theorem foldl_dedupStep_nodup (l : List String) :
    ∀ acc : List String, acc.Nodup → (l.foldl dedupStep acc).Nodup := by
  induction l with
  | nil => intro acc h; exact h
  | cons x xs ih =>
    intro acc h
    simp only [List.foldl_cons]
    apply ih
    unfold dedupStep
    split
    · exact h
    · rename_i hx
      simp [List.nodup_append, h, hx]

theorem dedupKeepFirst_nodup (l : List String) : (dedupKeepFirst l).Nodup :=
  foldl_dedupStep_nodup l [] List.nodup_nil

theorem mem_foldl_dedupStep (l : List String) :
    ∀ (acc : List String) (y : String), y ∈ l.foldl dedupStep acc ↔ y ∈ acc ∨ y ∈ l := by
  induction l with
  | nil => simp
  | cons x xs ih =>
    intro acc y
    simp only [List.foldl_cons, ih, List.mem_cons]
    unfold dedupStep
    split
    · rename_i hx
      constructor
      · rintro (h | h)
        · exact Or.inl h
        · exact Or.inr (Or.inr h)
      · rintro (h | rfl | h)
        · exact Or.inl h
        · exact Or.inl hx
        · exact Or.inr h
    · simp only [List.mem_append, List.mem_singleton, or_assoc]

theorem mem_dedupKeepFirst (l : List String) (y : String) :
    y ∈ dedupKeepFirst l ↔ y ∈ l := by
  simp [dedupKeepFirst, mem_foldl_dedupStep]

theorem strLtB_irrefl : ∀ a : List Char, strLtB a a = false := by
  intro a
  induction a with
  | nil => rfl
  | cons x xs ih => simp [strLtB, lt_irrefl, ih]

theorem strLtB_trans : ∀ (a b c : List Char),
    strLtB a b = true → strLtB b c = true → strLtB a c = true := by
  intro a
  induction a with
  | nil =>
    intro b c hab hbc
    cases b with
    | nil => cases hab
    | cons y ys =>
      cases c with
      | nil => cases hbc
      | cons z zs => rfl
  | cons x xs ih =>
    intro b c hab hbc
    cases b with
    | nil => cases hab
    | cons y ys =>
      cases c with
      | nil => cases hbc
      | cons z zs =>
        rw [strLtB] at hab hbc ⊢
        by_cases hxy : x < y
        · by_cases hyz : y < z
          · rw [if_pos (lt_trans hxy hyz)]
          · by_cases hzy : z < y
            · rw [if_neg hyz, if_pos hzy] at hbc
              cases hbc
            · have : y = z := le_antisymm (not_lt.mp hzy) (not_lt.mp hyz)
              subst this
              rw [if_pos hxy]
        · by_cases hyx : y < x
          · rw [if_neg hxy, if_pos hyx] at hab
            cases hab
          · have : x = y := le_antisymm (not_lt.mp hyx) (not_lt.mp hxy)
            subst this
            rw [if_neg hxy, if_neg hxy] at hab
            by_cases hyz : x < z
            · rw [if_pos hyz]
            · by_cases hzy : z < x
              · rw [if_neg hyz, if_pos hzy] at hbc
                cases hbc
              · have : x = z := le_antisymm (not_lt.mp hzy) (not_lt.mp hyz)
                subst this
                rw [if_neg hyz, if_neg hyz] at hbc ⊢
                exact ih ys zs hab hbc

theorem strLtB_eq_of_false : ∀ (a b : List Char),
    strLtB a b = false → strLtB b a = false → a = b := by
  intro a
  induction a with
  | nil =>
    intro b hab _
    cases b with
    | nil => rfl
    | cons y ys => cases hab
  | cons x xs ih =>
    intro b hab hba
    cases b with
    | nil => cases hba
    | cons y ys =>
      rw [strLtB] at hab hba
      by_cases hxy : x < y
      · rw [if_pos hxy] at hab
        cases hab
      · by_cases hyx : y < x
        · rw [if_pos hyx] at hba
          cases hba
        · have hxyeq : x = y := le_antisymm (not_lt.mp hyx) (not_lt.mp hxy)
          subst hxyeq
          rw [if_neg hxy, if_neg hxy] at hab hba
          rw [ih ys hab hba]

theorem pyStrLe_total : ∀ a b : String, pyStrLe a b ∨ pyStrLe b a := by
  intro a b
  by_cases h : strLtB b.data a.data = false
  · exact Or.inl h
  · right
    rw [Bool.not_eq_false] at h
    by_cases h2 : strLtB a.data b.data = false
    · exact h2
    · rw [Bool.not_eq_false] at h2
      have := strLtB_trans _ _ _ h h2
      rw [strLtB_irrefl] at this
      cases this

theorem pyStrLe_trans : ∀ a b c : String, pyStrLe a b → pyStrLe b c → pyStrLe a c := by
  intro a b c hab hbc
  rw [pyStrLe] at hab hbc ⊢
  by_cases hca : strLtB c.data a.data = false
  · exact hca
  · rw [Bool.not_eq_false] at hca
    by_cases hbcb : strLtB b.data c.data = false
    · have : b.data = c.data := strLtB_eq_of_false _ _ hbcb hbc
      rw [← this] at hca
      rw [hca] at hab
      cases hab
    · rw [Bool.not_eq_false] at hbcb
      have := strLtB_trans _ _ _ hbcb hca
      rw [this] at hab
      cases hab

theorem pySortedStr_sorted (l : List String) : (pySortedStr l).Sorted pyStrLe :=
  @List.sorted_insertionSort String pyStrLe _ ⟨pyStrLe_total⟩ ⟨pyStrLe_trans⟩ l

theorem pySortedStr_perm (l : List String) : List.Perm (pySortedStr l) l :=
  List.perm_insertionSort _ l

/-! ### Claims C1, C4, C7, C8 (the mock text transforms) and C5 -/

/-- C1: `_mock_summary` returns `"No content."` when the trimmed text is
empty, the trimmed text unchanged when its length is at most 150, and
otherwise the first 150 characters of the trimmed text with trailing
whitespace stripped followed by `"..."`, of total length at most 153. -/
theorem C1_mock_summary_spec (text : String) :
    (pyStrip text = "" → mock_summary text = "No content.") ∧
    ((pyStrip text).length ≤ 150 → pyStrip text ≠ "" → mock_summary text = pyStrip text) ∧
    (150 < (pyStrip text).length →
      mock_summary text = pyRstrip (pyTake (pyStrip text) 150) ++ "..." ∧
      (mock_summary text).length ≤ 153) :=
  ⟨fun h => mock_summary_of_blank h,
   fun h2 h1 => mock_summary_of_short h1 h2,
   fun h => ⟨mock_summary_of_long h, mock_summary_long_length h⟩⟩

/-- Witness for C1 at concrete inputs: an empty text, a short text, and a
151-character text. -/
theorem C1_mock_summary_spec_witness :
    mock_summary "" = "No content." ∧ mock_summary "  hi  " = "hi" ∧
    mock_summary demoLong151 = pyRstrip (pyTake (pyStrip demoLong151) 150) ++ "..." :=
  ⟨(C1_mock_summary_spec "").1 (by decide),
   (C1_mock_summary_spec "  hi  ").2.1 (by decide) (by decide),
   ((C1_mock_summary_spec demoLong151).2.2 (by decide)).1⟩

/-- Counterexample to C4 as stated: on a single 61-character word,
`_mock_title` returns all 61 characters, more than "at most the first 60
characters of the trimmed text". -/
theorem C4_counterexample :
    pyStrip demoLongWord ≠ "" ∧ 60 < (mock_title demoLongWord).length := by
  decide

/-- C4 amended: `_mock_title` trims surrounding whitespace; if the trimmed
text is empty it returns `"Untitled"`; otherwise it joins the first 12
whitespace-separated words with single spaces and truncates to at most the
first 80 characters (so the result length is at most 80, not 60). -/
theorem C4_mock_title_amended (text : String) :
    (pyStrip text = "" → mock_title text = "Untitled") ∧
    (pyStrip text ≠ "" →
      mock_title text = pyTake (String.intercalate " " ((pySplit (pyStrip text)).take 12)) 80 ∧
      (mock_title text).length ≤ 80) := by
  constructor
  · intro h
    simp [mock_title, h]
  · intro h
    have he : mock_title text
        = pyTake (String.intercalate " " ((pySplit (pyStrip text)).take 12)) 80 := by
      simp [mock_title, h]
    exact ⟨he, he ▸ pyTake_length_le _ _⟩

/-- Witness for C4's amended theorem at concrete inputs. -/
theorem C4_mock_title_amended_witness :
    mock_title "   " = "Untitled" ∧ (mock_title "hello world").length ≤ 80 :=
  ⟨(C4_mock_title_amended "   ").1 (by decide),
   ((C4_mock_title_amended "hello world").2 (by decide)).2⟩

/-- C7: for every input text, `_mock_keywords` returns a list sorted in
ascending lexical order with no duplicate entries. -/
theorem C7_mock_keywords_sorted_nodup (text : String) :
    (mock_keywords text).Sorted pyStrLe ∧ (mock_keywords text).Nodup :=
  ⟨pySortedStr_sorted _,
   ((pySortedStr_perm _).nodup_iff).mpr (dedupKeepFirst_nodup _)⟩

/-- Counterexample to C8 as stated: 151 spaces have untrimmed length over
150, yet `_mock_summary` returns `"No content."`, which does not end in
`"..."`. -/
theorem C8_counterexample :
    150 < demoSpaces151.length ∧ ¬ ∃ t, mock_summary demoSpaces151 = t ++ "..." := by
  refine ⟨by decide, ?_⟩
  intro h
  have h2 : mock_summary demoSpaces151 = "No content." := by decide
  rw [h2] at h
  exact absurd (dots_suffix_rev _ h) (by decide)

/-- C8 amended: for every input text whose trimmed length is greater than
150, `_mock_summary` returns a result ending in `"..."` of length at most
153. -/
theorem C8_mock_summary_truncated (text : String) (h : 150 < (pyStrip text).length) :
    (∃ t, mock_summary text = t ++ "...") ∧ (mock_summary text).length ≤ 153 :=
  ⟨⟨pyRstrip (pyTake (pyStrip text) 150), mock_summary_of_long h⟩,
   mock_summary_long_length h⟩

/-- Witness for C8's amended theorem at a 151-character input. -/
theorem C8_mock_summary_truncated_witness :
    150 < (pyStrip demoLong151).length ∧
    ((∃ t, mock_summary demoLong151 = t ++ "...") ∧ (mock_summary demoLong151).length ≤ 153) :=
  ⟨by decide, C8_mock_summary_truncated demoLong151 (by decide)⟩

/-! ### Log store lemmas -/

theorem orderedInsert_eq_append {α : Type} (r : α → α → Prop) [DecidableRel r] (a : α) :
    ∀ l : List α, (∀ x ∈ l, ¬ r a x) → l.orderedInsert r a = l ++ [a] := by
  intro l
  induction l with
  | nil => intro _; rfl
  | cons b l ih =>
    intro h
    rw [List.orderedInsert, if_neg (h b (List.mem_cons_self b l))]
    rw [ih (fun x hx => h x (List.mem_cons_of_mem b hx))]
    rfl

theorem selectDescRows_eq_reverse :
    ∀ rows : List LogRow, rows.Pairwise (fun a b => a.id < b.id) →
      selectDescRows rows = rows.reverse := by
  intro rows
  induction rows with
  | nil => intro _; rfl
  | cons a l ih =>
    intro h
    obtain ⟨ha, hl⟩ := List.pairwise_cons.mp h
    rw [selectDescRows, List.insertionSort]
    rw [show l.insertionSort (fun a b => b.id ≤ a.id) = selectDescRows l from rfl, ih hl]
    rw [orderedInsert_eq_append _ a l.reverse
      (fun x hx => Nat.not_le.mpr (ha x (List.mem_reverse.mp hx)))]
    rw [List.reverse_cons]

theorem record_log_rows (st : Store) (ts mode : String) (inp out : Payload) :
    (record_log st ts mode inp out).rows =
      st.rows ++ [⟨st.nextId, ts, mode, encPayload inp, encPayload out⟩] := rfl

theorem wf_empty : Store.empty.WF := by
  constructor <;> simp [Store.empty]

theorem wf_record_log (st : Store) (h : st.WF) (ts mode : String) (inp out : Payload) :
    (record_log st ts mode inp out).WF := by
  obtain ⟨h1, h2⟩ := h
  constructor
  · rw [record_log_rows, List.pairwise_append]
    refine ⟨h1, List.pairwise_singleton _ _, ?_⟩
    intro a ha b hb
    rw [List.mem_singleton] at hb
    subst hb
    exact h2 a ha
  · intro r hr
    rw [record_log_rows, List.mem_append, List.mem_singleton] at hr
    rcases hr with hr | rfl
    · exact Nat.lt_succ_of_lt (h2 r hr)
    · exact Nat.lt_succ_self _

/-! ### Claim C2: history ordering and bounds -/

/-- Counterexample to C2 as stated: the limit is an arbitrary integer query
parameter and sqlite treats a negative `LIMIT` as "no limit", so with a
one-entry store and requested limit `-1` the history returns one entry, which
exceeds the requested limit. -/
theorem C2_counterexample :
    demoStore.WF ∧ (historyModel demoStore (-1)).length = 1 ∧
    ¬ (((historyModel demoStore (-1)).length : Int) ≤ -1) := by
  refine ⟨⟨?_, ?_⟩, ?_, ?_⟩ <;> decide

/-- C2 amended: for every well-formed store and every nonnegative requested
limit (the default being 10), the history rows are in strictly descending id
order, and their number exceeds neither the requested limit nor the number of
entries in the store. -/
theorem C2_history_desc_bounded (st : Store) (hwf : st.WF) (limit : Int) (hl : 0 ≤ limit) :
    (historyRows st limit).Pairwise (fun a b => b.id < a.id) ∧
    (historyRows st limit).length ≤ limit.toNat ∧
    (historyRows st limit).length ≤ st.rows.length ∧
    historyModel st = (historyRows st 10).map rowToEntry := by
  have hsel : selectDescRows st.rows = st.rows.reverse := selectDescRows_eq_reverse _ hwf.1
  have hnl : ¬ limit < 0 := Int.not_lt.mpr hl
  refine ⟨?_, ?_, ?_, rfl⟩
  · rw [historyRows, if_neg hnl, hsel]
    exact ((List.pairwise_reverse.mpr hwf.1).sublist (List.take_sublist _ _))
  · rw [historyRows, if_neg hnl]
    simp [List.length_take]
  · rw [historyRows, if_neg hnl, hsel]
    calc ((st.rows.reverse.take limit.toNat).length) ≤ st.rows.reverse.length :=
          (List.take_sublist _ _).length_le
      _ = st.rows.length := List.length_reverse _

/-- Witness for C2's amended theorem on a two-entry store with limit 1. -/
theorem C2_history_desc_bounded_witness :
    demoStore2.WF ∧ (0 : Int) ≤ 1 ∧
    ((historyRows demoStore2 1).Pairwise (fun a b => b.id < a.id) ∧
     (historyRows demoStore2 1).length ≤ (1 : Int).toNat ∧
     (historyRows demoStore2 1).length ≤ demoStore2.rows.length ∧
     historyModel demoStore2 = (historyRows demoStore2 10).map rowToEntry) :=
  ⟨⟨by decide, by decide⟩, by decide,
   C2_history_desc_bounded demoStore2 ⟨by decide, by decide⟩ 1 (by decide)⟩

/-! ### Blank input in mock mode -/

theorem pyIsSpace_not_word {c : Char} (h : pyIsSpace c = true) : isWordChar c = false := by
  simp only [pyIsSpace, Bool.or_eq_true, decide_eq_true_eq] at h
  rcases h with ((((rfl | rfl) | rfl) | rfl) | rfl) | rfl <;> decide

theorem pyIsSpace_toLower {c : Char} (h : pyIsSpace c = true) : Char.toLower c = c := by
  simp only [pyIsSpace, Bool.or_eq_true, decide_eq_true_eq] at h
  rcases h with ((((rfl | rfl) | rfl) | rfl) | rfl) | rfl <;> decide

theorem strip_nil_all_space :
    ∀ l : List Char, ((l.dropWhile pyIsSpace).reverse.dropWhile pyIsSpace).reverse = [] →
      ∀ c ∈ l, pyIsSpace c = true := by
  intro l
  induction l with
  | nil => intro _ c hc; cases hc
  | cons c cs ih =>
    intro h d hd
    by_cases hc : pyIsSpace c = true
    · rw [List.dropWhile_cons, if_pos hc] at h
      rcases List.mem_cons.mp hd with rfl | hd2
      · exact hc
      · exact ih h d hd2
    · rw [List.dropWhile_cons, if_neg hc] at h
      rw [List.reverse_eq_nil_iff, List.dropWhile_eq_nil_iff] at h
      exact absurd (h c (by simp)) hc

theorem pyStrip_eq_nil_all_space {s : String} (h : pyStrip s = "") :
    ∀ c ∈ s.data, pyIsSpace c = true := by
  apply strip_nil_all_space
  have : (pyStrip s).data = ("" : String).data := by rw [h]
  exact this

theorem splitOnPred_all_sep (p : Char → Bool) :
    ∀ l : List Char, (∀ c ∈ l, p c = true) →
      (splitOnPred p l).filter (fun r => r ≠ []) = [] := by
  intro l
  induction l with
  | nil => intro _; rfl
  | cons c cs ih =>
    intro h
    rw [splitOnPred, if_pos (h c (by simp))]
    rw [List.filter_cons]
    simp only [ne_eq, not_true_eq_false, decide_False]
    exact ih (fun d hd => h d (List.mem_cons_of_mem c hd))

theorem mock_keywords_blank {s : String} (h : pyStrip s = "") : mock_keywords s = [] := by
  have hall : ∀ c ∈ (pyLower s).data, pyIsSpace c = true := by
    intro c hc
    simp only [pyLower] at hc
    obtain ⟨d, hd, rfl⟩ := List.mem_map.mp hc
    have hds := pyStrip_eq_nil_all_space h d hd
    rw [pyIsSpace_toLower hds]
    exact hds
  have hruns : wordRuns (pyLower s) = [] := by
    rw [wordRuns]
    have : (splitOnPred (fun c => !isWordChar c) (pyLower s).data).filter
        (fun r => r ≠ []) = [] := by
      apply splitOnPred_all_sep
      intro c hc
      rw [pyIsSpace_not_word (hall c hc)]
      rfl
    rw [this]
    rfl
  rw [mock_keywords, hruns]
  rfl

/-! ### Claim C6: missing credential fails eagerly -/

/-- C6: in live mode with no API credential configured, each of the four
handlers (title/summarize/keywords given non-empty trimmed text) fails with
HTTP 500 and the message "Missing OPENAI_API_KEY", issues no completion call,
and leaves the log store unchanged. -/
theorem C6_missing_key_eager (cfg : Config) (llm : LLM) (ts : String) (st : Store)
    (prompt text : String) (hm : cfg.mock = false) (hk : cfg.apiKey = none)
    (ht : pyStrip text ≠ "") :
    generate cfg llm ts st prompt = ⟨.error ⟨500, "Missing OPENAI_API_KEY"⟩, [], st⟩ ∧
    title cfg llm ts st text = ⟨.error ⟨500, "Missing OPENAI_API_KEY"⟩, [], st⟩ ∧
    summarize cfg llm ts st text = ⟨.error ⟨500, "Missing OPENAI_API_KEY"⟩, [], st⟩ ∧
    keywords cfg llm ts st text = ⟨.error ⟨500, "Missing OPENAI_API_KEY"⟩, [], st⟩ := by
  have hek : ensure_api_key cfg = .error ⟨500, "Missing OPENAI_API_KEY"⟩ := by
    rw [ensure_api_key, hk]
  refine ⟨?_, ?_, ?_, ?_⟩ <;>
    simp only [generate, title, summarize, keywords, hm, hek, ht, Bool.false_eq_true,
      if_false, ite_false]

/-- Witness for C6 at concrete inputs. -/
theorem C6_missing_key_eager_witness :
    generate noKeyCfg okLlm "t0" Store.empty "hi"
        = ⟨.error ⟨500, "Missing OPENAI_API_KEY"⟩, [], Store.empty⟩ ∧
    title noKeyCfg okLlm "t0" Store.empty "hello"
        = ⟨.error ⟨500, "Missing OPENAI_API_KEY"⟩, [], Store.empty⟩ ∧
    summarize noKeyCfg okLlm "t0" Store.empty "hello"
        = ⟨.error ⟨500, "Missing OPENAI_API_KEY"⟩, [], Store.empty⟩ ∧
    keywords noKeyCfg okLlm "t0" Store.empty "hello"
        = ⟨.error ⟨500, "Missing OPENAI_API_KEY"⟩, [], Store.empty⟩ :=
  C6_missing_key_eager noKeyCfg okLlm "t0" Store.empty "hi" "hello" rfl rfl (by decide)

/-! ### Claim C9: fixed model and temperature per capability -/

/-- Counterexample to C9 as stated: the live summarize call is issued with
temperature 0.3, not the claimed 0.2. -/
theorem C9_counterexample :
    (summarize liveCfg okLlm "t0" Store.empty "hello").calls.map CompletionCall.temperature
      = [(0.3 : ℚ)] ∧ (0.3 : ℚ) ≠ (0.2 : ℚ) := by
  constructor
  · rfl
  · norm_num

/-- C9 amended: in live mode with a configured credential (and non-empty
trimmed text for title/summarize/keywords), each handler issues exactly one
completion call with model "gpt-4o-mini" and temperature 0.2 for generate,
0.1 for title, 0.3 for summarize and 0.0 for keywords, for any oracle
outcome. -/
theorem C9_fixed_model_temperature (cfg : Config) (llm : LLM) (ts : String) (st : Store)
    (prompt text k : String) (hm : cfg.mock = false) (hk : cfg.apiKey = some k)
    (hk2 : k ≠ "") (ht : pyStrip text ≠ "") :
    (generate cfg llm ts st prompt).calls.map (fun c => (c.model, c.temperature))
        = [("gpt-4o-mini", (0.2 : ℚ))] ∧
    (title cfg llm ts st text).calls.map (fun c => (c.model, c.temperature))
        = [("gpt-4o-mini", (0.1 : ℚ))] ∧
    (summarize cfg llm ts st text).calls.map (fun c => (c.model, c.temperature))
        = [("gpt-4o-mini", (0.3 : ℚ))] ∧
    (keywords cfg llm ts st text).calls.map (fun c => (c.model, c.temperature))
        = [("gpt-4o-mini", (0.0 : ℚ))] := by
  have hek : ensure_api_key cfg = .ok () := by
    simp only [ensure_api_key, hk]
    rw [if_neg hk2]
  refine ⟨?_, ?_, ?_, ?_⟩
  · rw [generate]
    simp only [hm, Bool.false_eq_true, if_false, hek]
    cases llm ⟨"gpt-4o-mini", 0.2, [("user", prompt)]⟩ <;> rfl
  · rw [title]
    simp only [hm, Bool.false_eq_true, if_false, hek, ht, ite_false]
    cases llm ⟨"gpt-4o-mini", 0.1,
        [("system", "Provide a concise title."), ("user", pyStrip text)]⟩ <;> rfl
  · rw [summarize]
    simp only [hm, Bool.false_eq_true, if_false, hek, ht, ite_false]
    cases llm ⟨"gpt-4o-mini", 0.3,
        [("system", "Summarize the following text."), ("user", pyStrip text)]⟩ <;> rfl
  · rw [keywords]
    simp only [hm, Bool.false_eq_true, if_false, hek, ht, ite_false]
    cases llm ⟨"gpt-4o-mini", 0.0,
        [("system", "Extract distinct keywords as a comma separated list."),
         ("user", pyStrip text)]⟩ <;> rfl

/-- Witness for C9's amended theorem at concrete inputs. -/
theorem C9_fixed_model_temperature_witness :
    (generate liveCfg okLlm "t0" Store.empty "hi").calls.map
        (fun c => (c.model, c.temperature)) = [("gpt-4o-mini", (0.2 : ℚ))] ∧
    (title liveCfg okLlm "t0" Store.empty "hello").calls.map
        (fun c => (c.model, c.temperature)) = [("gpt-4o-mini", (0.1 : ℚ))] ∧
    (summarize liveCfg okLlm "t0" Store.empty "hello").calls.map
        (fun c => (c.model, c.temperature)) = [("gpt-4o-mini", (0.3 : ℚ))] ∧
    (keywords liveCfg okLlm "t0" Store.empty "hello").calls.map
        (fun c => (c.model, c.temperature)) = [("gpt-4o-mini", (0.0 : ℚ))] :=
  C9_fixed_model_temperature liveCfg okLlm "t0" Store.empty "hi" "hello" "sk-test"
    rfl rfl (by decide) (by decide)

/-! ### Claim C10: mock generate echoes verbatim; other mocks default -/

/-- C10: in mock mode the generate handler applies no trimming and no
blank-input default: for every prompt it returns exactly
`\x7b"text": "(mock) you said: " ++ prompt\x7d` and writes a LogEntry, while
the title, summarize and keywords handlers substitute canned defaults
(`"Untitled"`, `"No content."`, `[]`) for any blank input. -/
theorem C10_mock_generate_verbatim (cfg : Config) (llm : LLM) (ts : String) (st : Store)
    (prompt blank : String) (hm : cfg.mock = true) (hb : pyStrip blank = "") :
    generate cfg llm ts st prompt =
      ⟨.ok [("text", .s ("(mock) you said: " ++ prompt))], [],
        record_log st ts "generate" [("prompt", .s prompt)]
          [("text", .s ("(mock) you said: " ++ prompt))]⟩ ∧
    (title cfg llm ts st blank).result = .ok [("text", .s "Untitled")] ∧
    (summarize cfg llm ts st blank).result = .ok [("text", .s "No content.")] ∧
    (keywords cfg llm ts st blank).result = .ok [("keywords", .arr [])] := by
  refine ⟨?_, ?_, ?_, ?_⟩
  · rw [generate]
    simp only [hm, if_true, mock_generate]
  · rw [title]
    simp only [hm, if_true, finishTitle, hb, ite_true]
  · rw [summarize]
    simp only [hm, if_true, finishSummarize, hb, ite_true]
  · rw [keywords]
    simp only [hm, if_true, finishKeywords, mock_keywords_blank hb]

/-- Witness for C10 with a whitespace-only prompt (echoed verbatim, no
trimming) and a whitespace-only blank input for the other three handlers. -/
theorem C10_mock_generate_verbatim_witness :
    generate mockCfg okLlm "t0" Store.empty "  " =
      ⟨.ok [("text", .s "(mock) you said:   ")], [],
        record_log Store.empty "t0" "generate" [("prompt", .s "  ")]
          [("text", .s "(mock) you said:   ")]⟩ ∧
    (title mockCfg okLlm "t0" Store.empty "   ").result = .ok [("text", .s "Untitled")] ∧
    (summarize mockCfg okLlm "t0" Store.empty "   ").result
        = .ok [("text", .s "No content.")] ∧
    (keywords mockCfg okLlm "t0" Store.empty "   ").result = .ok [("keywords", .arr [])] :=
  C10_mock_generate_verbatim mockCfg okLlm "t0" Store.empty "  " "   " rfl (by decide)

/-! ### JSON roundtrip: `json.loads(json.dumps(p)) = p` on the fragment -/

theorem skipWs_cons_not {c : Char} (l : List Char) (h : jsonWs c = false) :
    skipWs (c :: l) = c :: l := by
  simp [skipWs, List.dropWhile_cons, h]

theorem skipWs_cons_ws {c : Char} (l : List Char) (h : jsonWs c = true) :
    skipWs (c :: l) = skipWs l := by
  simp [skipWs, List.dropWhile_cons, h]

theorem hexVal_hexDig : ∀ n < 16, hexVal (hexDig n) = some n := by decide

theorem parseStrBody_escList :
    ∀ (cs : List Char) (rest : List Char),
      parseStrBody (escList cs ++ ('"' :: rest)) = some (cs, rest) := by
  intro cs
  induction cs with
  | nil =>
    intro rest
    rw [show escList [] ++ ('"' :: rest) = '"' :: rest from rfl]
    rw [parseStrBody.eq_def]
    simp
  | cons c cs ih =>
    intro rest
    rw [escList, List.append_assoc]
    by_cases h1 : c = '"'
    · subst h1
      rw [show escChar '"' ++ (escList cs ++ '"' :: rest)
          = '\\' :: '"' :: (escList cs ++ '"' :: rest) from rfl]
      rw [parseStrBody.eq_def]
      simp [consFst, ih]
    · by_cases h2 : c = '\\'
      · subst h2
        rw [show escChar '\\' ++ (escList cs ++ '"' :: rest)
            = '\\' :: '\\' :: (escList cs ++ '"' :: rest) from rfl]
        rw [parseStrBody.eq_def]
        simp [consFst, ih]
      · by_cases h3 : c = '\n'
        · subst h3
          rw [show escChar '\n' ++ (escList cs ++ '"' :: rest)
              = '\\' :: 'n' :: (escList cs ++ '"' :: rest) from rfl]
          rw [parseStrBody.eq_def]
          simp [consFst, ih]
        · by_cases h4 : c = '\t'
          · subst h4
            rw [show escChar '\t' ++ (escList cs ++ '"' :: rest)
                = '\\' :: 't' :: (escList cs ++ '"' :: rest) from rfl]
            rw [parseStrBody.eq_def]
            simp [consFst, ih]
          · by_cases h5 : c = '\r'
            · subst h5
              rw [show escChar '\r' ++ (escList cs ++ '"' :: rest)
                  = '\\' :: 'r' :: (escList cs ++ '"' :: rest) from rfl]
              rw [parseStrBody.eq_def]
              simp [consFst, ih]
            · by_cases h6 : c = Char.ofNat 8
              · subst h6
                rw [show escChar (Char.ofNat 8) ++ (escList cs ++ '"' :: rest)
                    = '\\' :: 'b' :: (escList cs ++ '"' :: rest) from rfl]
                rw [parseStrBody.eq_def]
                simp [consFst, ih]
              · by_cases h7 : c = Char.ofNat 12
                · subst h7
                  rw [show escChar (Char.ofNat 12) ++ (escList cs ++ '"' :: rest)
                      = '\\' :: 'f' :: (escList cs ++ '"' :: rest) from rfl]
                  rw [parseStrBody.eq_def]
                  simp [consFst, ih]
                · by_cases h8 : c.toNat < 32
                  · rw [show escChar c
                        = ['\\', 'u', '0', '0', hexDig (c.toNat / 16), hexDig (c.toNat % 16)]
                      from by simp [escChar, h1, h2, h3, h4, h5, h6, h7, h8]]
                    simp only [List.cons_append, List.nil_append]
                    rw [parseStrBody.eq_def]
                    have hhi := hexVal_hexDig (c.toNat / 16) (by omega)
                    have hlo := hexVal_hexDig (c.toNat % 16) (by omega)
                    simp [consFst, ih, hhi, hlo]
                    rw [show hexVal '0' = some 0 from rfl]
                    simp only []
                    rw [show ((0 * 16 + 0) * 16 + c.toNat / 16) * 16 + c.toNat % 16
                        = c.toNat from by omega]
                    simp [Char.ofNat_toNat]
                  · rw [show escChar c = [c] from by
                      simp [escChar, h1, h2, h3, h4, h5, h6, h7, h8]]
                    simp only [List.cons_append, List.nil_append]
                    rw [parseStrBody.eq_def]
                    simp [consFst, ih, h1, h2]

theorem parseStrLit_enc (s : String) (rest : List Char) :
    parseStrLit (encStrL s.data ++ rest) = some (s, rest) := by
  rw [show encStrL s.data ++ rest = '"' :: (escList s.data ++ ('"' :: rest)) from by
    simp [encStrL]]
  rw [parseStrLit.eq_def]
  simp [parseStrBody_escList, mk_data]

theorem skipWs_rb (l : List Char) : skipWs (']' :: l) = ']' :: l :=
  skipWs_cons_not _ (by decide)

theorem skipWs_comma (l : List Char) : skipWs (',' :: l) = ',' :: l :=
  skipWs_cons_not _ (by decide)

theorem skipWs_colon (l : List Char) : skipWs (':' :: l) = ':' :: l :=
  skipWs_cons_not _ (by decide)

theorem skipWs_rbrace (l : List Char) : skipWs (Char.ofNat 125 :: l) = Char.ofNat 125 :: l :=
  skipWs_cons_not _ (by decide)

theorem skipWs_quote (l : List Char) : skipWs ('"' :: l) = '"' :: l :=
  skipWs_cons_not _ (by decide)

theorem skipWs_lbrack (l : List Char) : skipWs ('[' :: l) = '[' :: l :=
  skipWs_cons_not _ (by decide)

theorem skipWs_lbrace (l : List Char) : skipWs (Char.ofNat 123 :: l) = Char.ofNat 123 :: l :=
  skipWs_cons_not _ (by decide)

theorem skipWs_space (l : List Char) : skipWs (' ' :: l) = skipWs l :=
  skipWs_cons_ws _ (by decide)

theorem interL_enc_cons (w : String) (vs : List String) :
    ∃ t, interL ((w :: vs).map (fun x => encStrL x.data)) = '"' :: t := by
  cases vs with
  | nil => exact ⟨_, rfl⟩
  | cons y ys => exact ⟨_, rfl⟩

theorem parseItems_enc :
    ∀ (vs : List String) (v : String) (fuel : Nat) (rest : List Char), vs.length < fuel →
      parseItems fuel (interL ((v :: vs).map (fun x => encStrL x.data)) ++ (']' :: rest))
        = some (v :: vs, rest) := by
  intro vs
  induction vs with
  | nil =>
    intro v fuel rest hf
    obtain ⟨f, rfl⟩ : ∃ f, fuel = f + 1 := ⟨fuel - 1, by omega⟩
    rw [show interL ([v].map (fun x => encStrL x.data)) = encStrL v.data from rfl]
    rw [parseItems.eq_def]
    simp [parseStrLit_enc, skipWs_rb]
  | cons w vs ih =>
    intro v fuel rest hf
    obtain ⟨f, rfl⟩ : ∃ f, fuel = f + 1 := ⟨fuel - 1, by omega⟩
    rw [show interL ((v :: w :: vs).map (fun x => encStrL x.data)) ++ (']' :: rest)
        = encStrL v.data
          ++ (',' :: ' ' :: (interL ((w :: vs).map (fun x => encStrL x.data)) ++ (']' :: rest)))
      from by simp [interL, sepItem, List.append_assoc]]
    rw [parseItems.eq_def]
    simp only [parseStrLit_enc, skipWs_comma]
    rw [skipWs_space]
    obtain ⟨t, ht⟩ := interL_enc_cons w vs
    rw [ht, List.cons_append, skipWs_quote, ← List.cons_append, ← ht]
    rw [ih w f rest (by simpa using Nat.lt_of_succ_lt_succ hf)]

theorem parseArr_enc (vs : List String) (fuel : Nat) (rest : List Char)
    (hf : vs.length ≤ fuel) :
    parseArr fuel (encValL (.arr vs) ++ rest) = some (vs, rest) := by
  cases vs with
  | nil =>
    rw [show encValL (.arr ([] : List String)) ++ rest = '[' :: (']' :: rest) from rfl]
    rw [parseArr.eq_def]
    simp [skipWs_rb]
  | cons w ws =>
    rw [show encValL (.arr (w :: ws)) ++ rest
        = '[' :: (interL ((w :: ws).map (fun x => encStrL x.data)) ++ (']' :: rest)) from by
      simp [encValL, List.append_assoc]]
    rw [parseArr.eq_def]
    obtain ⟨t, ht⟩ := interL_enc_cons w ws
    rw [ht, List.cons_append]
    simp only [skipWs_quote]
    show parseItems fuel ('"' :: (t ++ (']' :: rest))) = some (w :: ws, rest)
    rw [← List.cons_append, ← ht]
    rw [parseItems_enc ws w fuel rest
      (by simp only [List.length_cons] at hf; omega)]

theorem parseVal_enc (v : JVal) (fuel : Nat) (rest : List Char) (hf : arrLen v ≤ fuel) :
    parseVal fuel (encValL v ++ rest) = some (v, rest) := by
  cases v with
  | s str =>
    rw [show encValL (.s str) ++ rest = '"' :: (escList str.data ++ ('"' :: rest)) from by
      simp [encValL, encStrL]]
    rw [parseVal.eq_def]
    show (parseStrLit ('"' :: (escList str.data ++ ('"' :: rest)))).map
      (fun r => (JVal.s r.1, r.2)) = some (JVal.s str, rest)
    rw [show ('"' :: (escList str.data ++ ('"' :: rest))) = encStrL str.data ++ rest from by
      simp [encStrL]]
    rw [parseStrLit_enc]
    rfl
  | arr vs =>
    have hform : encValL (.arr vs) ++ rest
        = '[' :: (interL (vs.map (fun x => encStrL x.data)) ++ (']' :: rest)) := by
      simp [encValL, List.append_assoc]
    rw [hform, parseVal.eq_def]
    show (parseArr fuel
        ('[' :: (interL (vs.map (fun x => encStrL x.data)) ++ (']' :: rest)))).map
      (fun r => (JVal.arr r.1, r.2)) = some (JVal.arr vs, rest)
    rw [← hform, parseArr_enc vs fuel rest (by simpa [arrLen] using hf)]
    rfl

theorem skipWs_encValL (v : JVal) (r : List Char) :
    skipWs (encValL v ++ r) = encValL v ++ r := by
  cases v with
  | s str =>
    rw [show encValL (.s str) ++ r = '"' :: (escList str.data ++ ('"' :: r)) from by
      simp [encValL, encStrL]]
    exact skipWs_quote _
  | arr vs =>
    rw [show encValL (.arr vs) ++ r
        = '[' :: (interL (vs.map (fun x => encStrL x.data)) ++ (']' :: r)) from by
      simp [encValL, List.append_assoc]]
    exact skipWs_lbrack _

theorem pairsWeight_cons (k : String) (v : JVal) (p : Payload) :
    pairsWeight ((k, v) :: p) = 1 + arrLen v + pairsWeight p := by
  simp [pairsWeight]
  omega

theorem interL_encPair_cons (kv : String × JVal) (p : Payload) :
    ∃ t, interL ((kv :: p).map encPairL) = '"' :: t := by
  cases p with
  | nil => exact ⟨_, rfl⟩
  | cons kv2 p2 => exact ⟨_, rfl⟩

theorem parsePairs_enc :
    ∀ (p : Payload) (k : String) (v : JVal) (fuel : Nat) (rest : List Char),
      pairsWeight ((k, v) :: p) < fuel →
      parsePairs fuel (interL (((k, v) :: p).map encPairL) ++ (Char.ofNat 125 :: rest))
        = some ((k, v) :: p, rest) := by
  intro p
  induction p with
  | nil =>
    intro k v fuel rest hf
    obtain ⟨f, rfl⟩ : ∃ f, fuel = f + 1 := ⟨fuel - 1, by omega⟩
    rw [show interL ([(k, v)].map encPairL) ++ (Char.ofNat 125 :: rest)
        = encStrL k.data ++ (':' :: ' ' :: (encValL v ++ (Char.ofNat 125 :: rest))) from by
      simp [interL, encPairL, List.append_assoc]]
    rw [parsePairs.eq_def]
    simp only [parseStrLit_enc, skipWs_colon]
    rw [skipWs_space, skipWs_encValL]
    rw [parseVal_enc v f (Char.ofNat 125 :: rest)
      (by rw [pairsWeight_cons] at hf; omega)]
    simp only [skipWs_rbrace]
    simp

  | cons kv2 p2 ih =>
    intro k v fuel rest hf
    obtain ⟨k2, v2⟩ := kv2
    obtain ⟨f, rfl⟩ : ∃ f, fuel = f + 1 := ⟨fuel - 1, by omega⟩
    rw [show interL (((k, v) :: (k2, v2) :: p2).map encPairL) ++ (Char.ofNat 125 :: rest)
        = encStrL k.data ++ (':' :: ' ' :: (encValL v ++ (',' :: ' ' ::
            (interL (((k2, v2) :: p2).map encPairL) ++ (Char.ofNat 125 :: rest))))) from by
      simp [interL, encPairL, sepItem, List.append_assoc]]
    rw [parsePairs.eq_def]
    simp only [parseStrLit_enc, skipWs_colon]
    rw [skipWs_space, skipWs_encValL]
    rw [parseVal_enc v f (',' :: ' ' ::
        (interL (((k2, v2) :: p2).map encPairL) ++ (Char.ofNat 125 :: rest)))
      (by rw [pairsWeight_cons] at hf; omega)]
    simp only [skipWs_comma]
    rw [skipWs_space]
    obtain ⟨t, ht⟩ := interL_encPair_cons (k2, v2) p2
    rw [ht, List.cons_append, skipWs_quote, ← List.cons_append, ← ht]
    rw [ih k2 v2 f rest (by rw [pairsWeight_cons] at hf; omega)]
    simp

theorem parsePayload_enc (p : Payload) (fuel : Nat) (rest : List Char)
    (hf : pairsWeight p < fuel) :
    parsePayload fuel (encPayloadL p ++ rest) = some (p, rest) := by
  cases p with
  | nil =>
    rw [show encPayloadL [] ++ rest = Char.ofNat 123 :: (Char.ofNat 125 :: rest) from rfl]
    rw [parsePayload.eq_def]
    simp only [skipWs_lbrace, skipWs_rbrace]
    simp
  | cons kv p2 =>
    obtain ⟨k, v⟩ := kv
    rw [show encPayloadL ((k, v) :: p2) ++ rest
        = Char.ofNat 123 :: (interL (((k, v) :: p2).map encPairL) ++ (Char.ofNat 125 :: rest))
      from by simp [encPayloadL, List.append_assoc]]
    rw [parsePayload.eq_def]
    simp only [skipWs_lbrace]
    obtain ⟨t, ht⟩ := interL_encPair_cons (k, v) p2
    rw [ht, List.cons_append, skipWs_quote]
    show parsePairs fuel ('"' :: (t ++ (Char.ofNat 125 :: rest))) = some ((k, v) :: p2, rest)
    rw [← List.cons_append, ← ht]
    exact parsePairs_enc p2 k v fuel rest hf

theorem interL_length (ls : List (List Char)) : ls.length ≤ (interL ls).length + 1 := by
  induction ls with
  | nil => simp [interL]
  | cons x xs ih =>
    cases xs with
    | nil => simp [interL]
    | cons y ys =>
      rw [show interL (x :: y :: ys) = x ++ (sepItem ++ interL (y :: ys)) from rfl]
      simp only [List.length_cons, List.length_append, sepItem] at ih ⊢
      omega

theorem encValL_length (v : JVal) : arrLen v + 1 ≤ (encValL v).length := by
  cases v with
  | s str => simp [encValL, encStrL, arrLen]
  | arr vs =>
    have h := interL_length (vs.map (fun x => encStrL x.data))
    simp only [List.length_map] at h
    simp only [encValL, arrLen, List.length_cons, List.length_append, List.length_singleton]
    omega

theorem encPairL_length (kv : String × JVal) : arrLen kv.2 + 1 ≤ (encPairL kv).length := by
  have h := encValL_length kv.2
  simp only [encPairL, List.length_append, List.length_cons]
  omega

theorem pairsWeight_le_interL (p : Payload) :
    pairsWeight p ≤ (interL (p.map encPairL)).length + 1 := by
  induction p with
  | nil => simp [pairsWeight, interL]
  | cons kv p2 ih =>
    obtain ⟨k, v⟩ := kv
    rw [pairsWeight_cons]
    cases p2 with
    | nil =>
      have h := encPairL_length (k, v)
      simp only [List.map_cons, List.map_nil, interL, pairsWeight, List.length_nil,
        List.map_nil, List.sum_nil] at *
      omega
    | cons kv2 p3 =>
      have h := encPairL_length (k, v)
      rw [show interL (((k, v) :: kv2 :: p3).map encPairL)
          = encPairL (k, v) ++ (sepItem ++ interL ((kv2 :: p3).map encPairL)) from rfl]
      simp only [List.length_append, sepItem, List.length_cons, List.length_nil] at *
      omega

theorem pairsWeight_lt_enc (p : Payload) : pairsWeight p < (encPayloadL p).length + 1 := by
  have h := pairsWeight_le_interL p
  simp only [encPayloadL, List.length_cons, List.length_append, List.length_singleton]
  omega

/-- The central roundtrip property: `json.loads(json.dumps(p)) = p` on the
payload fragment. -/
theorem decode_encode (p : Payload) : decodePayload (encPayload p) = some p := by
  rw [decodePayload]
  rw [show (encPayload p).data = encPayloadL p from rfl]
  have h := parsePayload_enc p ((encPayloadL p).length + 1) [] (pairsWeight_lt_enc p)
  rw [List.append_nil] at h
  rw [h]
  simp [skipWs]

theorem head?_take_map (r : LogRow) (l : List LogRow) :
    (((r :: l).take 10).map rowToEntry).head? = some (rowToEntry r) := by
  rw [show (r :: l).take 10 = r :: l.take 9 from rfl]
  rfl

/-- C3: writing a LogEntry via the log store and then listing history within
the default limit yields, as the newest entry, one with the same mode as the
call, whose output deserializes back into the original response payload and
whose input deserializes back into the original request body. -/
theorem C3_log_history_roundtrip (st : Store) (hwf : st.WF) (ts mode : String)
    (inp out : Payload) :
    (historyModel (record_log st ts mode inp out)).head?
      = some ⟨ts, mode, some inp, some out⟩ := by
  have hpw := (wf_record_log st hwf ts mode inp out).1
  rw [historyModel, historyRows]
  rw [if_neg (by decide : ¬ (10 : Int) < 0)]
  rw [selectDescRows_eq_reverse _ hpw]
  rw [record_log_rows, List.reverse_append]
  rw [show ([(⟨st.nextId, ts, mode, encPayload inp, encPayload out⟩ : LogRow)]).reverse
      = [⟨st.nextId, ts, mode, encPayload inp, encPayload out⟩] from rfl]
  rw [show ((10 : Int)).toNat = 10 from rfl, List.singleton_append]
  rw [head?_take_map]
  simp [rowToEntry, decode_encode]

/-- Witness for C3 on the empty store with a mock generate call. -/
theorem C3_log_history_roundtrip_witness :
    Store.empty.WF ∧
    (historyModel (record_log Store.empty "t1" "generate"
        [("prompt", .s "hi")] [("text", .s "(mock) you said: hi")])).head?
      = some ⟨"t1", "generate", some [("prompt", .s "hi")],
          some [("text", .s "(mock) you said: hi")]⟩ :=
  ⟨⟨by decide, by decide⟩,
   C3_log_history_roundtrip Store.empty ⟨by decide, by decide⟩ "t1" "generate"
     [("prompt", .s "hi")] [("text", .s "(mock) you said: hi")]⟩

/-- Counterexample to C5 as stated: on the model reply `"b, a"` the live
keywords handler returns `["a", "b"]` — lower-cased, de-duplicated and
sorted — whereas the spec-described shaping (JSON-array attempt, then
order-preserving comma split) yields `["b", "a"]`. -/
theorem C5_counterexample :
    (keywords liveCfg (fun _ => .ok "b, a") "t0" Store.empty "x").result
      = .ok [("keywords", .arr ["a", "b"])] ∧
    specKeywordsShape "b, a" = ["b", "a"] ∧
    (["a", "b"] : List String) ≠ ["b", "a"] := by
  refine ⟨?_, ?_, ?_⟩ <;> decide

/-- C5 amended: in live mode the keywords handler performs no JSON parsing;
it splits the raw reply on commas, trims each piece, discards blank pieces,
lower-cases the rest, removes duplicates and returns them sorted in ascending
lexical order (not in the model's order). -/
theorem C5_live_keywords_amended (reply : String) (cfg : Config) (ts : String)
    (st : Store) (text k : String) (hm : cfg.mock = false) (hk : cfg.apiKey = some k)
    (hk2 : k ≠ "") (ht : pyStrip text ≠ "") :
    (keywords cfg (fun _ => .ok reply) ts st text).result
        = .ok [("keywords", .arr (liveKeywords reply))] ∧
    (liveKeywords reply).Sorted pyStrLe ∧ (liveKeywords reply).Nodup ∧
    (∀ w, w ∈ liveKeywords reply ↔
      ∃ piece ∈ pySplitComma reply, pyStrip piece ≠ "" ∧ w = pyLower (pyStrip piece)) := by
  have hek : ensure_api_key cfg = .ok () := by
    simp only [ensure_api_key, hk]
    rw [if_neg hk2]
  refine ⟨?_, pySortedStr_sorted _,
    ((pySortedStr_perm _).nodup_iff).mpr (dedupKeepFirst_nodup _), ?_⟩
  · rw [keywords]
    simp only [hm, Bool.false_eq_true, if_false, hek, ht, ite_false, finishKeywords]
  · intro w
    rw [liveKeywords, List.Perm.mem_iff (pySortedStr_perm _), mem_dedupKeepFirst]
    simp only [List.mem_map, List.mem_filter, decide_eq_true_eq]
    constructor
    · rintro ⟨piece, ⟨hmem, hne⟩, rfl⟩
      exact ⟨piece, hmem, hne, rfl⟩
    · rintro ⟨piece, hmem, hne, rfl⟩
      exact ⟨piece, ⟨hmem, hne⟩, rfl⟩

/-- Witness for C5's amended theorem at the concrete reply `"b, a"`. -/
theorem C5_live_keywords_amended_witness :
    (keywords liveCfg (fun _ => .ok "b, a") "t0" Store.empty "x").result
        = .ok [("keywords", .arr (liveKeywords "b, a"))] ∧
    (liveKeywords "b, a").Sorted pyStrLe ∧ (liveKeywords "b, a").Nodup ∧
    (∀ w, w ∈ liveKeywords "b, a" ↔
      ∃ piece ∈ pySplitComma "b, a", pyStrip piece ≠ "" ∧ w = pyLower (pyStrip piece)) :=
  C5_live_keywords_amended "b, a" liveCfg "t0" Store.empty "x" "sk-test"
    rfl rfl (by decide) (by decide)
